import Mathlib

/-!
Verification of the Nearest Mean Centroid (NMC) classifier
(`src/classifiers/nmc.py`) against its natural-language specification.

Shallow embedding conventions:
* a numeric 2-D array is a `List (List ℚ)` (rows of rationals); floating-point
  arithmetic is modelled exactly over `ℚ`;
* a NaN float entry (produced by `np.mean` of an empty slice) is modelled as
  `none : Option ℚ`, so a stored centroid entry is an `Option ℚ`;
* a mutating method that can raise is modelled as a function returning the
  post-call state together with the raised error, if any (in Python the
  object keeps the mutations performed before the raise);
* `sklearn.metrics.pairwise.pairwise_distances` validates its inputs: a NaN
  entry or a column-count mismatch raises `ValueError`; the Euclidean
  distances it returns are `Real.sqrt` of the rational squared distances.
-/

namespace NMCSpec

/-- Errors the Python code can raise, named by provenance:
`unfitted` is the explicit `ValueError` raised by `predict` (nmc.py line 75),
`invalidInput` is a `ValueError` raised inside `pairwise_distances` / `np.argmax`,
`indexError` is numpy's `IndexError` for a boolean mask whose length does not
match the indexed array (line 56, `xtr[ytr == k, :]`). -/
inductive NMCError where
  | unfitted : NMCError
  | invalidInput : NMCError
  | indexError : NMCError
deriving DecidableEq

/-- Insert an integer into an already sorted list, keeping it sorted. -/
def insertSorted (a : ℤ) : List ℤ → List ℤ
  | [] => [a]
  | b :: t => if a ≤ b then a :: b :: t else b :: insertSorted a t

/-- Sort a list of integers ascending (insertion sort). -/
def sortInts (l : List ℤ) : List ℤ := l.foldr insertSorted []

/-- Model of `np.unique`: the distinct values of the list, sorted ascending. -/
def npUnique (l : List ℤ) : List ℤ := sortInts l.dedup

/-- Model of `xtr.shape[1]` for a rectangular array given as a list of rows:
the width of the first row (numpy would know the width of an empty array
too; no claim depends on that case). -/
def shape1 (xtr : List (List ℚ)) : ℕ := (xtr.headD []).length

/-- Model of the boolean-mask selection `xtr[ytr == k, :]` when the mask
length matches: the rows of `xtr` whose paired label equals `k`. -/
def selectRows (xtr : List (List ℚ)) (ytr : List ℤ) (k : ℤ) : List (List ℚ) :=
  ((xtr.zip ytr).filter fun p => p.2 == k).map Prod.fst

/-- Model of `np.mean(rows, axis=0)` on an `(m, width)` slice: the elementwise
arithmetic mean.  The mean of an empty slice is a row of NaN (numpy emits a
RuntimeWarning and returns NaN), modelled as `none` entries. -/
def npMeanAxis0 (rows : List (List ℚ)) (width : ℕ) : List (Option ℚ) :=
  if rows.isEmpty then List.replicate width none
  else (List.range width).map fun j =>
    some ((rows.map fun r => r.getD j 0).sum / (rows.length : ℚ))

/-- The centroid table `NMC.fit` computes (nmc.py lines 51-56): row `k`
is the mean of the rows of `xtr` whose label equals the index `k` itself
(`xtr[ytr == k, :]`), for `k` in `range(np.unique(ytr).size)`. -/
def fitCentroids (xtr : List (List ℚ)) (ytr : List ℤ) : List (List (Option ℚ)) :=
  (List.range (npUnique ytr).length).map fun k =>
    npMeanAxis0 (selectRows xtr ytr (Int.ofNat k)) (shape1 xtr)

/-- Model of np.zeros(shape=(n, d)) (nmc.py line 53). -/
def zerosMat (n d : ℕ) : List (List (Option ℚ)) :=
  List.replicate n (List.replicate d (some 0))

/-- The classifier's state: the two private fields set in `__init__`
(nmc.py lines 25-27). -/
structure NMC where
  _centroids : Option (List (List (Option ℚ)))
  _class_labels : Option (List ℤ)
deriving DecidableEq

/-- Model of NMC.__init__: both fields start as `None`. -/
def NMC.init : NMC := ⟨none, none⟩

/-- The read-only property `centroids` (nmc.py lines 29-31). -/
def NMC.centroids (c : NMC) : Option (List (List (Option ℚ))) := c._centroids

/-- The read-only property `class_labels` (nmc.py lines 33-35). -/
def NMC.class_labels (c : NMC) : Option (List ℤ) := c._class_labels

/-- Run `NMC.fit` (nmc.py lines 37-58): the post-call state together with the
raised error, if any.  Line 53 assigns `self._centroids = np.zeros(...)` BEFORE
the per-class loop; when the boolean mask `ytr == k` has a length different
from `xtr`'s row count, numpy raises `IndexError` on the first loop iteration,
leaving the freshly zeroed table in place — unless there are zero distinct
labels, in which case the loop body never runs and no error occurs.  `fit`
performs no input validation of its own. -/
def NMC.fitRun (c : NMC) (xtr : List (List ℚ)) (ytr : List ℤ) :
    NMC × Option NMCError :=
  if xtr.length = ytr.length ∨ (npUnique ytr).length = 0 then
    ({ c with _centroids := some (fitCentroids xtr ytr) }, none)
  else
    ({ c with _centroids := some (zerosMat (npUnique ytr).length (shape1 xtr)) },
      some NMCError.indexError)

/-- The state `NMC.fit` leaves behind (the method returns `self`). -/
def NMC.fit (c : NMC) (xtr : List (List ℚ)) (ytr : List ℤ) : NMC :=
  (c.fitRun xtr ytr).1

/-- Squared Euclidean distance between two equal-length vectors: the sum of
squared coordinate differences.  The Euclidean distance sklearn computes is
its real square root. -/
def sqeuclid (x c : List ℚ) : ℚ :=
  ((x.zip c).map fun p => (p.1 - p.2) ^ 2).sum

/-- Drop the NaN markers from a centroid row known to contain none. -/
def stripRow (r : List (Option ℚ)) : List ℚ := r.map fun o => o.getD 0

/-- Whether a stored centroid table contains a NaN entry. -/
def hasNaN (cents : List (List (Option ℚ))) : Bool :=
  cents.any fun row => row.any fun e => e.isNone

/-- The column count of a stored centroid table (`self.centroids.shape[1]`);
the table built by `fit` is rectangular, so the first row's width. -/
def centWidth (cents : List (List (Option ℚ))) : ℕ := (cents.headD []).length

/-- Minimum of `a :: l` (left fold of `min`). -/
def listMin {α : Type} [LinearOrder α] (a : α) (l : List α) : α := l.foldl min a

/-- Maximum of `a :: l` (left fold of `max`). -/
def listMax {α : Type} [LinearOrder α] (a : α) (l : List α) : α := l.foldl max a

/-- Model of `np.argmin` along one row: the index of the first occurrence of
the minimum (`0` on an empty row, a case the callers guard). -/
def npArgmin {α : Type} [LinearOrder α] : List α → ℕ
  | [] => 0
  | [_] => 0
  | a :: b :: t => if a ≤ listMin b t then 0 else npArgmin (b :: t) + 1

/-- Model of `np.argmax` along one row: the index of the first occurrence of
the maximum (`0` on an empty row, a case the callers guard). -/
def npArgmax {α : Type} [LinearOrder α] : List α → ℕ
  | [] => 0
  | [_] => 0
  | a :: b :: t => if listMax b t ≤ a then 0 else npArgmax (b :: t) + 1

/-- The similarity transform of nmc.py line 79, `scores = 1 / (1e-3 + dist)`.
It exists only inside theorem statements (exact real arithmetic), hence
noncomputable. -/
noncomputable def score (d : ℝ) : ℝ := 1 / (1 / 1000 + d)

/-- Model of NMC.predict (nmc.py lines 60-82).  Raises the explicit `ValueError`
when unfitted (line 75); `pairwise_distances` (line 78) raises `ValueError`
when the stored centroids contain NaN or when the column counts of `xts` and
of the centroid table differ; `np.argmax(scores, axis=1)` (line 81) raises
`ValueError` on rows of width zero.  Otherwise each output entry is the index
of the first maximal score of its row, which — because `d ↦ 1/(1e-3 + d)` is
strictly decreasing on nonnegative distances and `Real.sqrt` is strictly
increasing — is the index of the first minimal squared distance; the theorem
`argmax_score_sqrt_eq_argmin` below proves that reading of lines 78-81. -/
def NMC.predict (c : NMC) (xts : List (List ℚ)) : Except NMCError (List ℕ) :=
  match c._centroids with
  | none => Except.error NMCError.unfitted
  | some cents =>
    if hasNaN cents then Except.error NMCError.invalidInput
    else if xts.any fun x => x.length != centWidth cents then
      Except.error NMCError.invalidInput
    else if cents.isEmpty && !xts.isEmpty then Except.error NMCError.invalidInput
    else Except.ok (xts.map fun x =>
      npArgmin (cents.map fun cent => sqeuclid x (stripRow cent)))

/-- Modelled from the spec: the Class Label Set, "the set of distinct values
in `labels`, sorted into a deterministic order (ascending)". -/
def specClassLabelSet (ytr : List ℤ) : List ℤ := npUnique ytr

/-- Modelled from the spec: "Centroid[i] = elementwise mean of all training
Samples whose Label equals ClassLabelSet[i]". -/
def specCentroids (xtr : List (List ℚ)) (ytr : List ℤ) : List (List (Option ℚ)) :=
  (specClassLabelSet ytr).map fun lab =>
    npMeanAxis0 (selectRows xtr ytr lab) (shape1 xtr)

example : npUnique [5, 7] = [5, 7] := by decide

example : fitCentroids [[2], [4]] [1, 3] = [[none], [some 2]] := by
  norm_num [fitCentroids, npUnique, sortInts, insertSorted, shape1, npMeanAxis0,
    selectRows, List.dedup, List.range_succ]

example : specCentroids [[2], [4]] [1, 3] = [[some 2], [some 4]] := by
  norm_num [specCentroids, specClassLabelSet, npUnique, sortInts, insertSorted,
    shape1, npMeanAxis0, selectRows, List.dedup, List.range_succ]

example : NMC.init.predict [[0]] = Except.error NMCError.unfitted := rfl

example :
    (NMC.init.fit [[0, 0], [0, 2], [10, 10], [10, 12]] [0, 0, 1, 1])._centroids =
      some [[some 0, some 1], [some 10, some 11]] := by
  norm_num [NMC.fit, NMC.fitRun, fitCentroids, npUnique, sortInts, insertSorted,
    shape1, npMeanAxis0, selectRows, List.dedup, List.range_succ]

example :
    (⟨some [[some 0, some 1], [some 10, some 11]], none⟩ : NMC).predict
      [[1, 1], [9, 9]] = Except.ok [0, 1] := by
  norm_num [NMC.predict, hasNaN, centWidth, stripRow, sqeuclid, npArgmin, listMin]

/-! ### Lemmas about `listMin` / `listMax` and the first-occurrence arg extrema -/

theorem listMin_cons {α : Type} [LinearOrder α] (a b : α) (l : List α) :
    listMin a (b :: l) = listMin (min a b) l := rfl

theorem listMax_cons {α : Type} [LinearOrder α] (a b : α) (l : List α) :
    listMax a (b :: l) = listMax (max a b) l := rfl

theorem listMin_min {α : Type} [LinearOrder α] (a b : α) (l : List α) :
    listMin (min a b) l = min a (listMin b l) := by
  induction l generalizing a b with
  | nil => rfl
  | cons c t ih => rw [listMin_cons, listMin_cons, min_assoc, ih]

theorem listMax_max {α : Type} [LinearOrder α] (a b : α) (l : List α) :
    listMax (max a b) l = max a (listMax b l) := by
  induction l generalizing a b with
  | nil => rfl
  | cons c t ih => rw [listMax_cons, listMax_cons, max_assoc, ih]

theorem listMin_le_head {α : Type} [LinearOrder α] (a : α) (l : List α) :
    listMin a l ≤ a := by
  induction l generalizing a with
  | nil => exact le_refl a
  | cons b t ih => exact le_trans (ih (min a b)) (min_le_left a b)

theorem head_le_listMax {α : Type} [LinearOrder α] (a : α) (l : List α) :
    a ≤ listMax a l := by
  induction l generalizing a with
  | nil => exact le_refl a
  | cons b t ih => exact le_trans (le_max_left a b) (ih (max a b))

theorem listMin_le_mem {α : Type} [LinearOrder α] {x : α} (a : α) {l : List α}
    (hx : x ∈ l) : listMin a l ≤ x := by
  induction l generalizing a with
  | nil => cases hx
  | cons b t ih =>
    rcases List.mem_cons.mp hx with h | h
    · subst h
      exact le_trans (listMin_le_head (min a x) t) (min_le_right a x)
    · exact ih (min a b) h

theorem mem_le_listMax {α : Type} [LinearOrder α] {x : α} (a : α) {l : List α}
    (hx : x ∈ l) : x ≤ listMax a l := by
  induction l generalizing a with
  | nil => cases hx
  | cons b t ih =>
    rcases List.mem_cons.mp hx with h | h
    · subst h
      exact le_trans (le_max_right a x) (head_le_listMax (max a x) t)
    · exact ih (max a b) h

theorem listMin_le_mem_cons {α : Type} [LinearOrder α] {x b : α} {u : List α}
    (hx : x ∈ b :: u) : listMin b u ≤ x := by
  rcases List.mem_cons.mp hx with h | h
  · exact h ▸ listMin_le_head b u
  · exact listMin_le_mem b h

theorem mem_cons_le_listMax {α : Type} [LinearOrder α] {x b : α} {u : List α}
    (hx : x ∈ b :: u) : x ≤ listMax b u := by
  rcases List.mem_cons.mp hx with h | h
  · exact h ▸ head_le_listMax b u
  · exact mem_le_listMax b h

theorem getD_mem {α : Type} {l : List α} {j : ℕ} (h : j < l.length) (d : α) :
    l.getD j d ∈ l := by
  induction l generalizing j with
  | nil => simp at h
  | cons a t ih =>
    cases j with
    | zero => simp
    | succ k =>
      rw [List.getD_cons_succ]
      exact List.mem_cons_of_mem a (ih (by simpa using h))

theorem getD_map_of_lt {α β : Type} (f : α → β) {l : List α} {j : ℕ}
    (h : j < l.length) (d : α) (e : β) : (l.map f).getD j e = f (l.getD j d) := by
  induction l generalizing j with
  | nil => simp at h
  | cons a t ih =>
    cases j with
    | zero => simp
    | succ k =>
      rw [List.map_cons, List.getD_cons_succ, List.getD_cons_succ]
      exact ih (by simpa using h)

theorem npArgmin_cons₂ {α : Type} [LinearOrder α] (a b : α) (t : List α) :
    npArgmin (a :: b :: t) = if a ≤ listMin b t then 0 else npArgmin (b :: t) + 1 :=
  rfl

theorem npArgmax_cons₂ {α : Type} [LinearOrder α] (a b : α) (t : List α) :
    npArgmax (a :: b :: t) = if listMax b t ≤ a then 0 else npArgmax (b :: t) + 1 :=
  rfl

theorem npArgmin_lt_length {α : Type} [LinearOrder α] {l : List α} (h : l ≠ []) :
    npArgmin l < l.length := by
  induction l with
  | nil => exact absurd rfl h
  | cons a t ih =>
    cases t with
    | nil => exact Nat.zero_lt_one
    | cons b u =>
      rw [npArgmin_cons₂]
      by_cases hc : a ≤ listMin b u
      · simp [hc]
      · rw [if_neg hc]
        exact Nat.succ_lt_succ (ih (List.cons_ne_nil b u))

theorem npArgmax_lt_length {α : Type} [LinearOrder α] {l : List α} (h : l ≠ []) :
    npArgmax l < l.length := by
  induction l with
  | nil => exact absurd rfl h
  | cons a t ih =>
    cases t with
    | nil => exact Nat.zero_lt_one
    | cons b u =>
      rw [npArgmax_cons₂]
      by_cases hc : listMax b u ≤ a
      · simp [hc]
      · rw [if_neg hc]
        exact Nat.succ_lt_succ (ih (List.cons_ne_nil b u))

theorem npArgmin_getD {α : Type} [LinearOrder α] (b : α) (u : List α) (d : α) :
    (b :: u).getD (npArgmin (b :: u)) d = listMin b u := by
  induction u generalizing b with
  | nil => rfl
  | cons c v ih =>
    rw [npArgmin_cons₂]
    by_cases h : b ≤ listMin c v
    · rw [if_pos h, List.getD_cons_zero, listMin_cons, listMin_min]
      exact (min_eq_left h).symm
    · rw [if_neg h, List.getD_cons_succ, ih c, listMin_cons, listMin_min]
      exact (min_eq_right (le_of_lt (not_le.mp h))).symm

theorem npArgmax_getD {α : Type} [LinearOrder α] (b : α) (u : List α) (d : α) :
    (b :: u).getD (npArgmax (b :: u)) d = listMax b u := by
  induction u generalizing b with
  | nil => rfl
  | cons c v ih =>
    rw [npArgmax_cons₂]
    by_cases h : listMax c v ≤ b
    · rw [if_pos h, List.getD_cons_zero, listMax_cons, listMax_max]
      exact (max_eq_left h).symm
    · rw [if_neg h, List.getD_cons_succ, ih c, listMax_cons, listMax_max]
      exact (max_eq_right (le_of_lt (not_le.mp h))).symm

theorem npArgmin_getD_le {α : Type} [LinearOrder α] (b : α) (u : List α) (d : α)
    {j : ℕ} (hj : j < (b :: u).length) :
    (b :: u).getD (npArgmin (b :: u)) d ≤ (b :: u).getD j d := by
  rw [npArgmin_getD]
  exact listMin_le_mem_cons (getD_mem hj d)

theorem npArgmax_getD_ge {α : Type} [LinearOrder α] (b : α) (u : List α) (d : α)
    {j : ℕ} (hj : j < (b :: u).length) :
    (b :: u).getD j d ≤ (b :: u).getD (npArgmax (b :: u)) d := by
  rw [npArgmax_getD]
  exact mem_cons_le_listMax (getD_mem hj d)

theorem npArgmin_getD_lt {α : Type} [LinearOrder α] (b : α) (u : List α) (d : α)
    {j : ℕ} (hj : j < npArgmin (b :: u)) :
    (b :: u).getD (npArgmin (b :: u)) d < (b :: u).getD j d := by
  induction u generalizing b j with
  | nil => simp [npArgmin] at hj
  | cons c v ih =>
    rw [npArgmin_cons₂] at hj ⊢
    by_cases h : b ≤ listMin c v
    · rw [if_pos h] at hj
      exact absurd hj (Nat.not_lt_zero j)
    · rw [if_neg h] at hj ⊢
      cases j with
      | zero =>
        rw [List.getD_cons_succ, List.getD_cons_zero, npArgmin_getD]
        exact not_le.mp h
      | succ k =>
        rw [List.getD_cons_succ, List.getD_cons_succ]
        exact ih c (Nat.lt_of_succ_lt_succ hj)

theorem npArgmax_getD_gt {α : Type} [LinearOrder α] (b : α) (u : List α) (d : α)
    {j : ℕ} (hj : j < npArgmax (b :: u)) :
    (b :: u).getD j d < (b :: u).getD (npArgmax (b :: u)) d := by
  induction u generalizing b j with
  | nil => simp [npArgmax] at hj
  | cons c v ih =>
    rw [npArgmax_cons₂] at hj ⊢
    by_cases h : listMax c v ≤ b
    · rw [if_pos h] at hj
      exact absurd hj (Nat.not_lt_zero j)
    · rw [if_neg h] at hj ⊢
      cases j with
      | zero =>
        rw [List.getD_cons_succ, List.getD_cons_zero, npArgmax_getD]
        exact not_le.mp h
      | succ k =>
        rw [List.getD_cons_succ, List.getD_cons_succ]
        exact ih c (Nat.lt_of_succ_lt_succ hj)

/-- The value `npArgmin l` is determined: it is the one index that minimizes `l` and is
strictly better than everything before it. -/
theorem npArgmin_eq_of {α : Type} [LinearOrder α] {l : List α} {i : ℕ} (d : α)
    (hi : i < l.length)
    (hle : ∀ j, j < l.length → l.getD i d ≤ l.getD j d)
    (hlt : ∀ j, j < i → l.getD i d < l.getD j d) :
    npArgmin l = i := by
  obtain ⟨b, u, rfl⟩ : ∃ b u, l = b :: u := by
    cases l with
    | nil => simp at hi
    | cons b u => exact ⟨b, u, rfl⟩
  rcases Nat.lt_trichotomy (npArgmin (b :: u)) i with h | h | h
  · exact absurd (lt_of_le_of_lt (npArgmin_getD_le b u d hi) (hlt _ h))
      (lt_irrefl _)
  · exact h
  · exact absurd
      (lt_of_le_of_lt (hle _ (npArgmin_lt_length (List.cons_ne_nil b u)))
        (npArgmin_getD_lt b u d h))
      (lt_irrefl _)

/-- The value `npArgmax l` is determined: it is the one index that maximizes `l` and is
strictly better than everything before it. -/
theorem npArgmax_eq_of {α : Type} [LinearOrder α] {l : List α} {i : ℕ} (d : α)
    (hi : i < l.length)
    (hle : ∀ j, j < l.length → l.getD j d ≤ l.getD i d)
    (hlt : ∀ j, j < i → l.getD j d < l.getD i d) :
    npArgmax l = i := by
  obtain ⟨b, u, rfl⟩ : ∃ b u, l = b :: u := by
    cases l with
    | nil => simp at hi
    | cons b u => exact ⟨b, u, rfl⟩
  rcases Nat.lt_trichotomy (npArgmax (b :: u)) i with h | h | h
  · exact absurd (lt_of_lt_of_le (hlt _ h) (npArgmax_getD_ge b u d hi))
      (lt_irrefl _)
  · exact h
  · exact absurd
      (lt_of_lt_of_le (npArgmax_getD_gt b u d h)
        (hle _ (npArgmax_lt_length (List.cons_ne_nil b u))))
      (lt_irrefl _)

/-! ### The similarity transform of line 79 and the distance computation -/

theorem sqeuclid_nonneg (x c : List ℚ) : 0 ≤ sqeuclid x c := by
  unfold sqeuclid
  apply List.sum_nonneg
  intro q hq
  simp only [List.mem_map] at hq
  obtain ⟨p, _, rfl⟩ := hq
  positivity

theorem score_le_score {a b : ℝ} (ha : 0 ≤ a) (hab : a ≤ b) : score b ≤ score a := by
  unfold score
  exact one_div_le_one_div_of_le (by linarith) (by linarith)

theorem score_lt_score {a b : ℝ} (ha : 0 ≤ a) (hab : a < b) : score b < score a := by
  unfold score
  exact one_div_lt_one_div_of_lt (by linarith) (by linarith)

/-- The score transform of nmc.py line 79 preserves the ranking: on a row of
nonnegative distances, the first maximum of the scores `1/(1e-3 + d)` sits at
the same index as the first minimum of the distances themselves, so
`np.argmax(scores)` is `np.argmin(dist)`. -/
theorem npArgmax_score_eq_npArgmin (l : List ℝ) (h0 : ∀ x ∈ l, 0 ≤ x) :
    npArgmax (l.map score) = npArgmin l := by
  cases l with
  | nil => rfl
  | cons b u =>
    have hlen : npArgmin (b :: u) < (b :: u).length :=
      npArgmin_lt_length (List.cons_ne_nil b u)
    apply npArgmax_eq_of (0 : ℝ)
    · simpa using hlen
    · intro j hj
      have hj' : j < (b :: u).length := by simpa using hj
      rw [getD_map_of_lt score hj' (0 : ℝ), getD_map_of_lt score hlen (0 : ℝ)]
      exact score_le_score (h0 _ (getD_mem hlen 0)) (npArgmin_getD_le b u 0 hj')
    · intro j hj
      have hj' : j < (b :: u).length := lt_trans hj hlen
      rw [getD_map_of_lt score hj' (0 : ℝ), getD_map_of_lt score hlen (0 : ℝ)]
      exact score_lt_score (h0 _ (getD_mem hlen 0)) (npArgmin_getD_lt b u 0 hj)

/-- Transfer of the first-minimum index along a map that is monotone (and
strictly monotone) on the list's elements. -/
theorem npArgmin_map_mono {α β : Type} [LinearOrder α] [LinearOrder β] (g : α → β)
    {l : List α}
    (hg : ∀ p ∈ l, ∀ q ∈ l, p ≤ q → g p ≤ g q)
    (hs : ∀ p ∈ l, ∀ q ∈ l, p < q → g p < g q) :
    npArgmin (l.map g) = npArgmin l := by
  cases l with
  | nil => rfl
  | cons b u =>
    have hlen : npArgmin (b :: u) < (b :: u).length :=
      npArgmin_lt_length (List.cons_ne_nil b u)
    apply npArgmin_eq_of (g b)
    · simpa using hlen
    · intro j hj
      have hj' : j < (b :: u).length := by simpa using hj
      rw [getD_map_of_lt g hj' b, getD_map_of_lt g hlen b]
      exact hg _ (getD_mem hlen b) _ (getD_mem hj' b) (npArgmin_getD_le b u b hj')
    · intro j hj
      have hj' : j < (b :: u).length := lt_trans hj hlen
      rw [getD_map_of_lt g hj' b, getD_map_of_lt g hlen b]
      exact hs _ (getD_mem hlen b) _ (getD_mem hj' b) (npArgmin_getD_lt b u b hj)

/-- Composing with the strictly increasing `Real.sqrt` as well:
`np.argmax` of the scores of the Euclidean distances (square roots of the
rational squared distances) sits at `np.argmin` of the squared distances —
the reading of nmc.py lines 78-81 that `NMC.predict` uses. -/
theorem argmax_score_sqrt_eq_argmin (x : List ℚ) (cents : List (List ℚ)) :
    npArgmax (cents.map fun c => score (Real.sqrt ((sqeuclid x c : ℚ) : ℝ))) =
      npArgmin (cents.map fun c => sqeuclid x c) := by
  have h : (cents.map fun c => score (Real.sqrt ((sqeuclid x c : ℚ) : ℝ))) =
      (((cents.map fun c => sqeuclid x c).map
        fun q => Real.sqrt ((q : ℚ) : ℝ)).map score) := by
    simp only [List.map_map]
    rfl
  have h0 : ∀ d ∈ ((cents.map fun c => sqeuclid x c).map
      fun q => Real.sqrt ((q : ℚ) : ℝ)), 0 ≤ d := by
    intro d hd
    simp only [List.mem_map] at hd
    obtain ⟨q, _, rfl⟩ := hd
    exact Real.sqrt_nonneg _
  rw [h, npArgmax_score_eq_npArgmin _ h0]
  apply npArgmin_map_mono
  · intro p _ q _ hpq
    exact Real.sqrt_le_sqrt (by exact_mod_cast hpq)
  · intro p hp q _ hpq
    apply Real.sqrt_lt_sqrt
    · simp only [List.mem_map] at hp
      obtain ⟨c, _, rfl⟩ := hp
      exact_mod_cast sqeuclid_nonneg x c
    · exact_mod_cast hpq

theorem sqeuclid_sqrt_le_iff (x ci cj : List ℚ) :
    Real.sqrt ((sqeuclid x ci : ℚ) : ℝ) ≤ Real.sqrt ((sqeuclid x cj : ℚ) : ℝ) ↔
      sqeuclid x ci ≤ sqeuclid x cj := by
  rw [Real.sqrt_le_sqrt_iff (by exact_mod_cast sqeuclid_nonneg x cj)]
  exact Rat.cast_le

theorem sqeuclid_sqrt_lt_iff (x ci cj : List ℚ) :
    Real.sqrt ((sqeuclid x ci : ℚ) : ℝ) < Real.sqrt ((sqeuclid x cj : ℚ) : ℝ) ↔
      sqeuclid x ci < sqeuclid x cj := by
  rw [Real.sqrt_lt_sqrt_iff (by exact_mod_cast sqeuclid_nonneg x ci)]
  exact Rat.cast_lt

/-! ### Evaluating `predict` on a NaN-free fitted state -/

theorem stripRow_map_some (r : List ℚ) : stripRow (r.map some) = r := by
  induction r with
  | nil => rfl
  | cons a t ih => simpa [stripRow] using ih

theorem hasNaN_map_some (cents : List (List ℚ)) :
    hasNaN (cents.map fun r => r.map some) = false := by
  simp [hasNaN]

/-- Running `predict` on a state whose stored table is a NaN-free matrix whose rows
all match the query's width reduces to the index of the first minimal
squared distance. -/
theorem predict_fitted (c : NMC) (cents : List (List ℚ)) (x : List ℚ)
    (hc : c._centroids = some (cents.map fun r => r.map some))
    (hw : ∀ r ∈ cents, r.length = x.length) (hne : cents ≠ []) :
    c.predict [x] = Except.ok [npArgmin (cents.map fun r => sqeuclid x r)] := by
  obtain ⟨r0, rest, rfl⟩ : ∃ r0 rest, cents = r0 :: rest := by
    cases cents with
    | nil => exact absurd rfl hne
    | cons r0 rest => exact ⟨r0, rest, rfl⟩
  have hr0 : r0.length = x.length := hw r0 (List.mem_cons_self r0 rest)
  simp [NMC.predict, hc, hasNaN, centWidth, hr0, stripRow_map_some,
    List.map_map, Function.comp_def]

/-- On a NaN-free fitted table, `predict [x]` selects the least class index
attaining the minimal Euclidean distance from `x` to the centroids. -/
theorem predict_min_index (c : NMC) (cents : List (List ℚ)) (x : List ℚ) (i : ℕ)
    (hc : c._centroids = some (cents.map fun r => r.map some))
    (hw : ∀ r ∈ cents, r.length = x.length)
    (hi : i < cents.length)
    (hle : ∀ j, j < cents.length →
      Real.sqrt ((sqeuclid x (cents.getD i []) : ℚ) : ℝ) ≤
        Real.sqrt ((sqeuclid x (cents.getD j []) : ℚ) : ℝ))
    (hlt : ∀ j, j < i →
      Real.sqrt ((sqeuclid x (cents.getD i []) : ℚ) : ℝ) <
        Real.sqrt ((sqeuclid x (cents.getD j []) : ℚ) : ℝ)) :
    c.predict [x] = Except.ok [i] := by
  have hne : cents ≠ [] := by
    intro h
    rw [h] at hi
    exact absurd hi (Nat.not_lt_zero i)
  have key : npArgmin (cents.map fun r => sqeuclid x r) = i := by
    apply npArgmin_eq_of (0 : ℚ)
    · simpa using hi
    · intro j hj
      have hj' : j < cents.length := by simpa using hj
      rw [getD_map_of_lt _ hi ([] : List ℚ), getD_map_of_lt _ hj' ([] : List ℚ)]
      exact (sqeuclid_sqrt_le_iff x _ _).mp (hle j hj')
    · intro j hj
      have hj' : j < cents.length := lt_trans hj hi
      rw [getD_map_of_lt _ hi ([] : List ℚ), getD_map_of_lt _ hj' ([] : List ℚ)]
      exact (sqeuclid_sqrt_lt_iff x _ _).mp (hlt j hj)
  rw [predict_fitted c cents x hc hw hne, key]

/-! ### Shape lemmas for the fitted table -/

theorem insertSorted_length (a : ℤ) (l : List ℤ) :
    (insertSorted a l).length = l.length + 1 := by
  induction l with
  | nil => rfl
  | cons b t ih =>
    unfold insertSorted
    by_cases h : a ≤ b
    · simp [h]
    · simp [h, ih]

theorem sortInts_length (l : List ℤ) : (sortInts l).length = l.length := by
  induction l with
  | nil => rfl
  | cons a t ih =>
    unfold sortInts at *
    simp [insertSorted_length, ih]

theorem npUnique_length (l : List ℤ) : (npUnique l).length = l.dedup.length :=
  sortInts_length l.dedup

theorem npMeanAxis0_length (rows : List (List ℚ)) (w : ℕ) :
    (npMeanAxis0 rows w).length = w := by
  unfold npMeanAxis0
  by_cases h : rows.isEmpty <;> simp [h]

theorem fitCentroids_length (xtr : List (List ℚ)) (ytr : List ℤ) :
    (fitCentroids xtr ytr).length = ytr.dedup.length := by
  unfold fitCentroids
  rw [List.length_map, List.length_range, npUnique_length]

theorem fitCentroids_row_length (xtr : List (List ℚ)) (ytr : List ℤ) :
    ∀ row ∈ fitCentroids xtr ytr, row.length = shape1 xtr := by
  intro row hrow
  simp only [fitCentroids, List.mem_map] at hrow
  obtain ⟨k, _, rfl⟩ := hrow
  exact npMeanAxis0_length _ _

/-- A `fit` call that raised no error stored the full freshly computed table
and touched nothing else. -/
theorem fitRun_success (c : NMC) (xtr : List (List ℚ)) (ytr : List ℤ)
    (h : (c.fitRun xtr ytr).2 = none) :
    (c.fitRun xtr ytr).1 = { c with _centroids := some (fitCentroids xtr ytr) } := by
  unfold NMC.fitRun at h ⊢
  by_cases hcond : xtr.length = ytr.length ∨ (npUnique ytr).length = 0
  · rw [if_pos hcond]
  · rw [if_neg hcond] at h
    simp at h

/-- A `fit` call that raised left the zero table assigned on line 53 in
place: the previous centroids are gone. -/
theorem fitRun_fail (c : NMC) (xtr : List (List ℚ)) (ytr : List ℤ) (e : NMCError)
    (h : (c.fitRun xtr ytr).2 = some e) :
    (c.fitRun xtr ytr).1 =
      { c with _centroids := some (zerosMat (npUnique ytr).length (shape1 xtr)) } := by
  unfold NMC.fitRun at h ⊢
  by_cases hcond : xtr.length = ytr.length ∨ (npUnique ytr).length = 0
  · rw [if_pos hcond] at h
    simp at h
  · rw [if_neg hcond]

/-! ### The claims -/

/-- Claim C1: the spec says `predict` maps each selected class index back to
the actual Label value via the Class Label Set and returns the predicted
labels.  The code does not: `fit` never stores the label set and builds its
table per raw index, so on the noncontiguous label set {5, 7} both fitted
centroids are NaN rows (means of empty selections) and `predict` fails in
the distance routine instead of returning any labels; when `predict` does
produce output it is raw argmax indices, never values of the label set. -/
theorem claim_C1_code :
    NMC.init.fit [[0], [10]] [5, 7] = ⟨some [[none], [none]], none⟩ ∧
    (NMC.init.fit [[0], [10]] [5, 7]).predict [[0]] =
      Except.error NMCError.invalidInput ∧
    specClassLabelSet [5, 7] = [5, 7] := by
  have hfit : NMC.init.fit [[0], [10]] [5, 7] = ⟨some [[none], [none]], none⟩ := by
    norm_num [NMC.fit, NMC.fitRun, NMC.init, fitCentroids, npUnique, sortInts,
      insertSorted, shape1, npMeanAxis0, selectRows, List.dedup, List.range_succ]
  refine ⟨hfit, ?_, by decide⟩
  rw [hfit]
  rfl

/-- Claim C2: the spec says centroid row i is the mean of the samples whose
label equals ClassLabelSet[i].  The code instead averages the samples whose
label equals the raw index i: on samples [[2],[4]] with labels [1, 3] it
stores [NaN row, mean of the label-1 rows] where the spec prescribes the two
class means [[2],[4]]. -/
theorem claim_C2_code :
    fitCentroids [[2], [4]] [1, 3] = [[none], [some 2]] ∧
    specCentroids [[2], [4]] [1, 3] = [[some 2], [some 4]] ∧
    fitCentroids [[2], [4]] [1, 3] ≠ specCentroids [[2], [4]] [1, 3] := by
  have h1 : fitCentroids [[2], [4]] [1, 3] = [[none], [some 2]] := by
    norm_num [fitCentroids, npUnique, sortInts, insertSorted, shape1, npMeanAxis0,
      selectRows, List.dedup, List.range_succ]
  have h2 : specCentroids [[2], [4]] [1, 3] = [[some 2], [some 4]] := by
    norm_num [specCentroids, specClassLabelSet, npUnique, sortInts, insertSorted,
      shape1, npMeanAxis0, selectRows, List.dedup, List.range_succ]
  refine ⟨h1, h2, ?_⟩
  rw [h1, h2]
  simp

/-- Claim C3: the accessor returns None before any fit — but `fit` never
assigns `_class_labels`, so after a successful fit (here one that stored a
complete centroid table) the accessor still returns None instead of the
sorted distinct training labels. -/
theorem claim_C3_code :
    NMC.init.class_labels = none ∧
    (NMC.init.fit [[0], [1]] [0, 1]).class_labels = none ∧
    (NMC.init.fit [[0], [1]] [0, 1])._centroids = some [[some 0], [some 1]] := by
  have hfit : NMC.init.fit [[0], [1]] [0, 1] = ⟨some [[some 0], [some 1]], none⟩ := by
    norm_num [NMC.fit, NMC.fitRun, NMC.init, fitCentroids, npUnique, sortInts,
      insertSorted, shape1, npMeanAxis0, selectRows, List.dedup, List.range_succ]
  exact ⟨rfl, by rw [hfit]; rfl, by rw [hfit]⟩

/-- Claim C4 counterexample: `fit` on the empty training set (N = 0) raises
nothing and silently stores an empty centroid table, where the claim demands
an InvalidInputError. -/
theorem claim_C4_counter :
    (NMC.init.fitRun [] []).2 = none ∧
    (NMC.init.fitRun [] []).1._centroids = some [] :=
  ⟨rfl, rfl⟩

/-- Claim C4 (amended): `fit` itself validates nothing — on empty input it
silently succeeds and stores a zero-row table; a samples/labels row-count
mismatch (with at least one distinct label) raises the array library's
IndexError from the masking on line 56; and `predict` whose input's width
differs from the fitted NaN-free table's width fails with the distance
routine's error rather than a dedicated InvalidInputError. -/
theorem claim_C4 :
    ((NMC.init.fitRun [] []).2 = none ∧
      (NMC.init.fitRun [] []).1._centroids = some []) ∧
    (∀ (c : NMC) (xtr : List (List ℚ)) (ytr : List ℤ),
      xtr.length ≠ ytr.length → (npUnique ytr).length ≠ 0 →
      (c.fitRun xtr ytr).2 = some NMCError.indexError) ∧
    (∀ (c : NMC) (cents : List (List (Option ℚ))) (xts : List (List ℚ)),
      c._centroids = some cents → hasNaN cents = false →
      (xts.any fun x => x.length != centWidth cents) = true →
      c.predict xts = Except.error NMCError.invalidInput) := by
  refine ⟨⟨rfl, rfl⟩, ?_, ?_⟩
  · intro c xtr ytr h1 h2
    unfold NMC.fitRun
    rw [if_neg]
    intro hor
    rcases hor with h | h
    · exact h1 h
    · exact h2 h
  · intro c cents xts h1 h2 h3
    simp [NMC.predict, h1, h2, h3]

/-- Claim C4 witness: a concrete mismatched `fit` raises, and a concrete
`predict` on a 1-column fitted table given a 2-column sample fails. -/
theorem claim_C4_witness :
    (NMC.fitRun NMC.init [[1]] [0, 1]).2 = some NMCError.indexError ∧
    NMC.predict ⟨some [[some 0]], none⟩ [[1, 2]] =
      Except.error NMCError.invalidInput :=
  ⟨claim_C4.2.1 NMC.init [[1]] [0, 1] (by decide) (by decide),
    claim_C4.2.2 ⟨some [[some 0]], none⟩ [[some 0]] [[1, 2]] rfl rfl rfl⟩

/-- Claim C5 counterexample: after a `fit` call that raised (the IndexError
from the mask-length mismatch), no successful fit has occurred — yet
`predict` does not raise the unfitted error: the zero table assigned on
line 53 before the failure makes the `centroids is None` check pass, and
`predict` answers normally. -/
theorem claim_C5_counter :
    (NMC.fitRun NMC.init [[1]] [0, 1]).2 = some NMCError.indexError ∧
    ((NMC.fitRun NMC.init [[1]] [0, 1]).1).predict [[0]] = Except.ok [0] := by
  constructor
  · rfl
  · have hstate : (NMC.fitRun NMC.init [[1]] [0, 1]).1 =
        ⟨some [[some 0], [some 0]], none⟩ := by
      norm_num [NMC.fitRun, NMC.init, npUnique, sortInts, insertSorted,
        List.dedup, zerosMat, shape1, List.replicate]
    rw [hstate]
    norm_num [NMC.predict, hasNaN, centWidth, stripRow, sqeuclid, npArgmin, listMin]

/-- Claim C5 (amended): `predict` raises the unfitted error exactly when the
stored centroid table is absent — in particular always on a freshly
constructed classifier; any `fit` call that reached the table assignment,
even one that then failed, makes the check pass. -/
theorem claim_C5 :
    (∀ xts : List (List ℚ), NMC.init.predict xts = Except.error NMCError.unfitted) ∧
    (∀ (c : NMC) (xts : List (List ℚ)),
      c.predict xts = Except.error NMCError.unfitted ↔ c._centroids = none) := by
  constructor
  · intro xts
    rfl
  · intro c xts
    constructor
    · intro h
      cases hc : c._centroids with
      | none => rfl
      | some cents =>
        exfalso
        simp only [NMC.predict, hc] at h
        split_ifs at h <;> simp_all
    · intro h
      simp [NMC.predict, h]

/-- Claim C6: on a fitted NaN-free classifier, (i) a sample strictly closer
under Euclidean distance to centroid i than to every other centroid is
assigned class index i; (ii) the least index attaining the minimal distance
wins, so exact ties go to the lowest class index; and (iii) the score
transform `1/(1e-3 + distance)` preserves exactly the ranking by ascending
distance: the first maximum of the scores of the Euclidean distances is the
first minimum of the squared distances. -/
theorem claim_C6 :
    (∀ (c : NMC) (cents : List (List ℚ)) (x : List ℚ) (i : ℕ),
      c._centroids = some (cents.map fun r => r.map some) →
      (∀ r ∈ cents, r.length = x.length) →
      i < cents.length →
      (∀ j, j < cents.length → j ≠ i →
        Real.sqrt ((sqeuclid x (cents.getD i []) : ℚ) : ℝ) <
          Real.sqrt ((sqeuclid x (cents.getD j []) : ℚ) : ℝ)) →
      c.predict [x] = Except.ok [i]) ∧
    (∀ (c : NMC) (cents : List (List ℚ)) (x : List ℚ) (i : ℕ),
      c._centroids = some (cents.map fun r => r.map some) →
      (∀ r ∈ cents, r.length = x.length) →
      i < cents.length →
      (∀ j, j < cents.length →
        Real.sqrt ((sqeuclid x (cents.getD i []) : ℚ) : ℝ) ≤
          Real.sqrt ((sqeuclid x (cents.getD j []) : ℚ) : ℝ)) →
      (∀ j, j < i →
        Real.sqrt ((sqeuclid x (cents.getD i []) : ℚ) : ℝ) <
          Real.sqrt ((sqeuclid x (cents.getD j []) : ℚ) : ℝ)) →
      c.predict [x] = Except.ok [i]) ∧
    (∀ (x : List ℚ) (cents : List (List ℚ)),
      npArgmax (cents.map fun cc => score (Real.sqrt ((sqeuclid x cc : ℚ) : ℝ))) =
        npArgmin (cents.map fun cc => sqeuclid x cc)) := by
  refine ⟨?_, ?_, argmax_score_sqrt_eq_argmin⟩
  · intro c cents x i hc hw hi hstrict
    apply predict_min_index c cents x i hc hw hi
    · intro j hj
      by_cases hji : j = i
      · subst hji
        exact le_refl _
      · exact le_of_lt (hstrict j hj hji)
    · intro j hj
      exact hstrict j (lt_trans hj hi) (Nat.ne_of_lt hj)
  · intro c cents x i hc hw hi hle hlt
    exact predict_min_index c cents x i hc hw hi hle hlt

/-- Claim C6 witness: [1,1] is strictly closer to centroid [0,0] than to
[10,10] and is classified 0; on two identical centroids [3] the tie goes to
index 0; and the score ranking coincides with the distance ranking on a
concrete table. -/
theorem claim_C6_witness :
    (⟨some [[some 0, some 0], [some 10, some 10]], none⟩ : NMC).predict [[1, 1]] =
      Except.ok [0] ∧
    (⟨some [[some 3], [some 3]], none⟩ : NMC).predict [[3]] = Except.ok [0] ∧
    npArgmax (([[0], [4]] : List (List ℚ)).map fun cc =>
        score (Real.sqrt ((sqeuclid [1] cc : ℚ) : ℝ))) =
      npArgmin (([[0], [4]] : List (List ℚ)).map fun cc => sqeuclid [1] cc) := by
  refine ⟨?_, ?_, claim_C6.2.2 [1] [[0], [4]]⟩
  · apply claim_C6.1 _ [[0, 0], [10, 10]] [1, 1] 0 rfl (by simp) (by norm_num)
    intro j hj hne
    have hj2 : j < 2 := by simpa using hj
    interval_cases j
    · exact absurd rfl hne
    · have e1 : sqeuclid [1, 1] (([[0, 0], [10, 10]] : List (List ℚ)).getD 0 []) =
          2 := by
        norm_num [sqeuclid, List.getD_cons_zero]
      have e2 : sqeuclid [1, 1] (([[0, 0], [10, 10]] : List (List ℚ)).getD 1 []) =
          162 := by
        norm_num [sqeuclid, List.getD_cons_zero, List.getD_cons_succ]
      rw [e1, e2]
      apply Real.sqrt_lt_sqrt <;> norm_num
  · apply claim_C6.2.1 _ [[3], [3]] [3] 0 rfl (by simp) (by norm_num)
    · intro j hj
      have hj2 : j < 2 := by simpa using hj
      interval_cases j
      · exact le_refl _
      · exact le_refl _
    · intro j hj
      exact absurd hj (Nat.not_lt_zero j)

/-- Claim C7 counterexample: a successfully fitted classifier (table
[[1],[3]]) is refitted with mismatched shapes; the refit raises, and the
stored table afterwards is neither the old one nor a complete new one but
the zero table assigned on line 53 — the previous state is lost. -/
theorem claim_C7_counter :
    ((NMC.init.fit [[1], [3]] [0, 1]).fitRun [[5]] [0, 1]).2 =
      some NMCError.indexError ∧
    (NMC.init.fit [[1], [3]] [0, 1])._centroids = some [[some 1], [some 3]] ∧
    ((NMC.init.fit [[1], [3]] [0, 1]).fitRun [[5]] [0, 1]).1._centroids =
      some [[some 0], [some 0]] := by
  have hfit : NMC.init.fit [[1], [3]] [0, 1] = ⟨some [[some 1], [some 3]], none⟩ := by
    norm_num [NMC.fit, NMC.fitRun, NMC.init, fitCentroids, npUnique, sortInts,
      insertSorted, shape1, npMeanAxis0, selectRows, List.dedup, List.range_succ]
  refine ⟨by rw [hfit]; rfl, by rw [hfit], ?_⟩
  rw [hfit]
  norm_num [NMC.fitRun, npUnique, sortInts, insertSorted, List.dedup, zerosMat,
    shape1, List.replicate]

/-- Claim C7 (amended): a `fit` that raises no error atomically replaces the
stored centroid table with the complete new one and leaves the rest of the
state untouched; but a `fit` that fails has already overwritten the stored
table with the zero table of line 53, so the previous state is not
preserved and a partially updated state is observable. -/
theorem claim_C7 :
    (∀ (c : NMC) (xtr : List (List ℚ)) (ytr : List ℤ),
      (c.fitRun xtr ytr).2 = none →
      (c.fitRun xtr ytr).1 = { c with _centroids := some (fitCentroids xtr ytr) }) ∧
    (∀ (c : NMC) (xtr : List (List ℚ)) (ytr : List ℤ) (e : NMCError),
      (c.fitRun xtr ytr).2 = some e →
      (c.fitRun xtr ytr).1 =
        { c with _centroids := some (zerosMat (npUnique ytr).length (shape1 xtr)) }) :=
  ⟨fitRun_success, fitRun_fail⟩

/-- Claim C7 witness: a concrete successful fit stores the computed table,
and a concrete failing fit leaves the zero table. -/
theorem claim_C7_witness :
    (NMC.fitRun NMC.init [[2]] [0]).1 =
      { NMC.init with _centroids := some (fitCentroids [[2]] [0]) } ∧
    (NMC.fitRun NMC.init [[1]] [0, 1]).1 =
      { NMC.init with
        _centroids := some (zerosMat (npUnique [0, 1]).length (shape1 [[1]])) } :=
  ⟨claim_C7.1 NMC.init [[2]] [0] rfl,
    claim_C7.2 NMC.init [[1]] [0, 1] NMCError.indexError rfl⟩

/-- Claim C8: after every successful fit the stored table has exactly one
row per distinct training label, and every row has the training data's
dimensionality (`xtr.shape[1]`). -/
theorem claim_C8 (c : NMC) (xtr : List (List ℚ)) (ytr : List ℤ)
    (h : (c.fitRun xtr ytr).2 = none) :
    ∃ tbl, (c.fitRun xtr ytr).1._centroids = some tbl ∧
      tbl.length = ytr.dedup.length ∧
      ∀ row ∈ tbl, row.length = shape1 xtr := by
  refine ⟨fitCentroids xtr ytr, ?_, fitCentroids_length xtr ytr,
    fitCentroids_row_length xtr ytr⟩
  rw [fitRun_success c xtr ytr h]

/-- Claim C8 witness: the table fitted on a 2×2 training set with two
distinct labels has two rows of width two. -/
theorem claim_C8_witness :
    ∃ tbl, (NMC.fitRun NMC.init [[1, 2], [3, 4]] [0, 1]).1._centroids = some tbl ∧
      tbl.length = ([0, 1] : List ℤ).dedup.length ∧
      ∀ row ∈ tbl, row.length = shape1 [[1, 2], [3, 4]] :=
  claim_C8 NMC.init [[1, 2], [3, 4]] [0, 1] rfl

/-- Claim C9: refitting with the same samples and labels is idempotent on
the whole stored state — the second call reproduces exactly the state the
first call left. -/
theorem claim_C9 (c : NMC) (xtr : List (List ℚ)) (ytr : List ℤ) :
    (c.fit xtr ytr).fit xtr ytr = c.fit xtr ytr := by
  unfold NMC.fit NMC.fitRun
  by_cases h : xtr.length = ytr.length ∨ (npUnique ytr).length = 0
  · rw [if_pos h, if_pos h]
  · rw [if_neg h, if_neg h]

/-- Claim C10: whenever `predict` returns a value, it is one ℕ per input
row and every entry is a raw class index below the number of stored
centroid rows — regardless of the label values used at fit time. -/
theorem claim_C10 (c : NMC) (cents : List (List (Option ℚ)))
    (xts : List (List ℚ)) (ys : List ℕ)
    (hc : c._centroids = some cents)
    (hok : c.predict xts = Except.ok ys) :
    ys.length = xts.length ∧ ∀ y ∈ ys, y < cents.length := by
  simp only [NMC.predict, hc] at hok
  by_cases h1 : hasNaN cents = true
  · rw [if_pos h1] at hok
    exact absurd hok (by simp)
  rw [if_neg h1] at hok
  by_cases h2 : (xts.any fun x => x.length != centWidth cents) = true
  · rw [if_pos h2] at hok
    exact absurd hok (by simp)
  rw [if_neg h2] at hok
  by_cases h3 : (cents.isEmpty && !xts.isEmpty) = true
  · rw [if_pos h3] at hok
    exact absurd hok (by simp)
  rw [if_neg h3] at hok
  rw [Except.ok.injEq] at hok
  subst hok
  constructor
  · exact List.length_map _ _
  · intro y hy
    simp only [List.mem_map] at hy
    obtain ⟨x, hx, rfl⟩ := hy
    have hcne : cents ≠ [] := by
      intro hnil
      subst hnil
      simp at h3
      subst h3
      simp at hx
    have hmapne : (cents.map fun cent => sqeuclid x (stripRow cent)) ≠ [] := by
      simpa using hcne
    have := npArgmin_lt_length hmapne
    simpa using this

/-- Claim C10 witness: predicting one sample against a two-row fitted table
returns one index, and it is below 2. -/
theorem claim_C10_witness :
    ([0] : List ℕ).length = ([[1]] : List (List ℚ)).length ∧
    ∀ y ∈ ([0] : List ℕ), y < ([[some 0], [some 4]] : List (List (Option ℚ))).length :=
  claim_C10 ⟨some [[some 0], [some 4]], none⟩ [[some 0], [some 4]] [[1]] [0] rfl
    (by norm_num [NMC.predict, hasNaN, centWidth, stripRow, sqeuclid, npArgmin,
      listMin])

end NMCSpec
